import Mathlib

/-!
Shallow embedding of the `merge_match_arms` assist from
`crates/ra_assists/src/assists/merge_match_arms.rs`.

The assist walks the syntax tree around a cursor: it locates the match arm
containing the cursor, collects the maximal forward run of guard-free arms whose
body text equals the anchor's body text, and replaces the run with a single arm
whose pattern is the alternation of the collected patterns (collapsed to the
placeholder token when any arm of the run holds a placeholder pattern).

Modelling choices, each tied to the source:
  * A pattern (`ast::Pat`) is its rendered text plus whether it is a
    `PlaceholderPat` (the only kind the code inspects, in `contains_placeholder`).
  * An expression (`ast::Expr`, the arm body) is its rendered text
    (`expr.syntax().text()`) plus its text range.
  * A match arm carries its pattern list (`MatchArm::pats`), an optional guard
    (only `guard().is_some()` is inspected), an optional body (`MatchArm::expr`)
    and its full text range (`syntax().text_range()`).
  * The sibling chain of the match-arm list is a `List Node`: arm nodes
    interleaved with non-arm nodes (commas, whitespace, comments), which
    `next_arm` skips via `siblings(Direction::Next).skip(1).find_map(cast)`.
  * Text offsets (`TextUnit`) are `Nat`; `TextRange::contains` is the half-open
    test `start <= offset && offset < end`; the one subtraction the code
    performs on offsets is modelled with truncated `Nat` subtraction and the
    absence of underflow is proved separately.
  * `ctx.find_node_at_offset::<ast::MatchArm>()` and `ctx.add_assist` are not
    under `src/`. Modelled from the spec: the anchor locator "finds the
    innermost arm node whose source range contains the cursor" (`findArmAt`),
    and the edit emitter packages the closure's target range, cursor and single
    replacement into the returned edit description (`Assist`), all-or-nothing.
  * `.first().unwrap()` / `.last().unwrap()` are modelled total with a default
    of `0` (`runStart` / `runEnd`); the safety claim shows the default is
    unreachable because the run always starts with the anchor.
-/

namespace MergeArms

/-- A pattern of a match arm: its rendered source text and whether it is a
placeholder (`ra_syntax::ast::Pat::PlaceholderPat`). -/
structure Pat where
  text : String
  isPlaceholder : Bool
deriving Repr, DecidableEq

/-- An arm body expression: rendered source text and its text range. -/
structure Expr where
  text : String
  rangeStart : Nat
  rangeEnd : Nat
deriving Repr, DecidableEq

/-- A match arm: pattern list, optional guard (only presence matters to the
code), optional body expression, and the arm's full text range. -/
structure MatchArm where
  pats : List Pat
  guard : Option Unit
  expr : Option Expr
  rangeStart : Nat
  rangeEnd : Nat
deriving Repr, DecidableEq

/-- A sibling node in the match-arm list: either a match arm or some other
node (comma, whitespace, comment) that `ast::MatchArm::cast` rejects. -/
inductive Node where
  | arm (a : MatchArm)
  | other
deriving Repr, DecidableEq

/-- The test `TextRange::contains`: `start <= offset && offset < end`. -/
def containsOffset (rangeStart rangeEnd offset : Nat) : Bool :=
  rangeStart ≤ offset && offset < rangeEnd

/-- The function `next_arm`: the first following sibling that casts to a match arm,
skipping non-arm siblings (`siblings(Direction::Next).skip(1).find_map(cast)`).
The argument is the sibling chain strictly after the current arm; the result
also returns the chain after the found arm, for iteration. -/
def next_arm : List Node → Option (MatchArm × List Node)
  | [] => none
  | Node.arm a :: rest => some (a, rest)
  | Node.other :: rest => next_arm rest

/-- The chain of arms produced by iterating `next_arm` from a sibling chain:
all arm nodes in order, with non-arm siblings skipped. -/
def armsAfter : List Node → List MatchArm
  | [] => []
  | Node.arm a :: rest => a :: armsAfter rest
  | Node.other :: rest => armsAfter rest

/-- The function `contains_placeholder`: does any pattern of the arm match
`Pat::PlaceholderPat(..)`? -/
def contains_placeholder (a : MatchArm) : Bool :=
  a.pats.any fun x => x.isPlaceholder

/-- The `take_while` predicate of the run collector: keep an arm iff it has no
guard and its body's rendered text equals the anchor body's rendered text. -/
def keepArm (currentExpr : Expr) (arm : MatchArm) : Bool :=
  if arm.guard.isSome then false
  else
    match arm.expr with
    | some e => e.text == currentExpr.text
    | none => false

/-- The run `arms_to_merge`: `successors(Some(current_arm), next_arm).take_while(..)`,
the anchor followed by the subsequent arms, cut at the first arm that has a
guard, lacks a body, or whose body text differs from the anchor's. -/
def collectArms (currentArm : MatchArm) (after : List Node) (currentExpr : Expr) :
    List MatchArm :=
  (currentArm :: armsAfter after).takeWhile (keepArm currentExpr)

/-- The merged pattern text: the placeholder token alone when any arm of the
run contains a placeholder pattern, otherwise every pattern's text, in run
order, joined by `" | "`. -/
def mergedPats (arms : List MatchArm) : String :=
  if arms.any contains_placeholder then "_"
  else String.intercalate " | " ((arms.map fun a => a.pats.map Pat.text).flatten)

/-- Modelled from the spec: `ctx.find_node_at_offset::<ast::MatchArm>()` (not
under `src/`) "finds the innermost arm node whose source range contains the
cursor". Over the flat sibling chain this is the arm whose range contains the
cursor; the chain after it is returned for the forward scan. `none` when the
cursor lies in no arm. -/
def findArmAt : List Node → Nat → Option (MatchArm × List Node)
  | [], _ => none
  | Node.arm a :: rest, cursor =>
      if containsOffset a.rangeStart a.rangeEnd cursor then some (a, rest)
      else findArmAt rest cursor
  | Node.other :: rest, cursor => findArmAt rest cursor

/-- The `CursorPos` enum of the source: `InExpr` stores the distance from the
end of the anchor arm's range to the cursor, `InPat` stores the absolute
cursor offset. -/
inductive CursorPos where
  | inExpr (backOffset : Nat)
  | inPat (offset : Nat)
deriving Repr, DecidableEq

/-- Modelled from the spec: the edit description `ctx.add_assist` (not under
`src/`) returns — a highlight/target range, the resulting cursor offset, and
exactly one range-replacement. -/
structure Assist where
  target : Nat × Nat
  cursor : Nat
  replaceRange : Nat × Nat
  replaceWith : String
deriving Repr, DecidableEq

/-- The source's `arms_to_merge.first().unwrap().syntax().text_range().start()`, modelled
total with default `0`; the run is proved non-empty separately. -/
def runStart (arms : List MatchArm) : Nat :=
  match arms.head? with
  | some a => a.rangeStart
  | none => 0

/-- The source's `arms_to_merge.last().unwrap().syntax().text_range().end()`, modelled
total with default `0`; the run is proved non-empty separately. -/
def runEnd (arms : List MatchArm) : Nat :=
  match arms.getLast? with
  | some a => a.rangeEnd
  | none => 0

/-- The assist `merge_match_arms`, translated clause by clause from the
source: locate the anchor arm at the cursor, bail out on a guard or a missing
body, classify the cursor as body-relative (`InExpr`) or pattern-relative
(`InPat`), collect the forward run, bail out on a run of length `<= 1`, and
otherwise emit the edit built by the closure passed to `ctx.add_assist`. -/
def merge_match_arms (snap : List Node) (cursor : Nat) : Option Assist :=
  match findArmAt snap cursor with
  | none => none
  | some (currentArm, after) =>
    if currentArm.guard.isSome then none
    else
      match currentArm.expr with
      | none => none
      | some currentExpr =>
        let cursorPos : CursorPos :=
          if containsOffset currentExpr.rangeStart currentExpr.rangeEnd cursor then
            CursorPos.inExpr (currentArm.rangeEnd - cursor)
          else CursorPos.inPat cursor
        let armsToMerge := collectArms currentArm after currentExpr
        if armsToMerge.length ≤ 1 then none
        else
          let pats := mergedPats armsToMerge
          let arm := pats ++ " => " ++ currentExpr.text
          let startOff := runStart armsToMerge
          let endOff := runEnd armsToMerge
          some
            { target := (currentArm.rangeStart, currentArm.rangeEnd)
              cursor :=
                match cursorPos with
                | CursorPos.inExpr backOffset => startOff + arm.length - backOffset
                | CursorPos.inPat offset => offset
              replaceRange := (startOff, endOff)
              replaceWith := arm }

/-- Applying a single range-replacement to a text, used to state the frame
property of the emitted edit: the text outside `[startOff, endOff)` is kept. -/
def applyEdit (text : List Char) (startOff endOff : Nat) (repl : List Char) :
    List Char :=
  text.take startOff ++ repl ++ text.drop endOff

/-- Does the sibling node fail to be an arm containing the cursor? Used to
state that material preceding the anchor is irrelevant. -/
def noArmAt (cursor : Nat) : Node → Bool
  | Node.arm b => !containsOffset b.rangeStart b.rangeEnd cursor
  | Node.other => true

/-! Concrete example data, mirroring the `merge_match_arms_single_patterns`
and `merge_match_arms_placeholder_pattern` tests of the source file: three
arms `X::A => 1i32`, `X::B => 1i32`, `X::C => 2i32` laid out consecutively,
and a placeholder variant. Used to instantiate the theorems below. -/

/-- Body `1i32` of the first example arm, at offsets `[9, 13)`. -/
def exExprA : Expr := { text := "1i32", rangeStart := 9, rangeEnd := 13 }

/-- Example arm `X::A => 1i32` at offsets `[0, 13)`. -/
def exArmA : MatchArm :=
  { pats := [{ text := "X::A", isPlaceholder := false }], guard := none
    expr := some exExprA, rangeStart := 0, rangeEnd := 13 }

/-- Example arm `X::B => 1i32` at offsets `[15, 28)`, body at `[24, 28)`. -/
def exArmB : MatchArm :=
  { pats := [{ text := "X::B", isPlaceholder := false }], guard := none
    expr := some { text := "1i32", rangeStart := 24, rangeEnd := 28 }
    rangeStart := 15, rangeEnd := 28 }

/-- Example arm `X::C => 2i32` at offsets `[30, 43)`, body at `[39, 43)`. -/
def exArmC : MatchArm :=
  { pats := [{ text := "X::C", isPlaceholder := false }], guard := none
    expr := some { text := "2i32", rangeStart := 39, rangeEnd := 43 }
    rangeStart := 30, rangeEnd := 43 }

/-- Sibling chain following the first example arm: a comma, `X::B => 1i32`,
a comma, `X::C => 2i32`. -/
def exAfterA : List Node := [Node.other, Node.arm exArmB, Node.other, Node.arm exArmC]

/-- The example match-arm list: `X::A => 1i32, X::B => 1i32, X::C => 2i32`. -/
def exSnapA : List Node := Node.arm exArmA :: exAfterA

/-- The edit the assist produces on `exSnapA` with the cursor at offset 10
(inside the first body, 3 text units before its end). -/
def exAssistA : Assist :=
  { target := (0, 13), cursor := 16, replaceRange := (0, 28)
    replaceWith := "X::A | X::B => 1i32" }

/-- Body `2i32` of the placeholder example's anchor arm, at `[24, 28)`. -/
def exExprB2 : Expr := { text := "2i32", rangeStart := 24, rangeEnd := 28 }

/-- Placeholder example's anchor arm `X::B => 2i32` at `[15, 28)`. -/
def exArmB2 : MatchArm :=
  { pats := [{ text := "X::B", isPlaceholder := false }], guard := none
    expr := some exExprB2, rangeStart := 15, rangeEnd := 28 }

/-- Placeholder arm `_ => 2i32` at `[30, 40)`, body at `[36, 40)`. -/
def exArmW : MatchArm :=
  { pats := [{ text := "_", isPlaceholder := true }], guard := none
    expr := some { text := "2i32", rangeStart := 36, rangeEnd := 40 }
    rangeStart := 30, rangeEnd := 40 }

/-- Sibling chain following the placeholder example's anchor. -/
def exAfterP : List Node := [Node.other, Node.arm exArmW]

/-- The placeholder example's match-arm list:
`X::A => 1i32, X::B => 2i32, _ => 2i32` with the anchor on the middle arm. -/
def exSnapP : List Node := [Node.arm exArmA, Node.other, Node.arm exArmB2, Node.other, Node.arm exArmW]

/-- The edit the assist produces on `exSnapP` with the cursor at offset 26
(inside the anchor body `2i32`). -/
def exAssistP : Assist :=
  { target := (15, 28), cursor := 22, replaceRange := (15, 40)
    replaceWith := "_ => 2i32" }

/-- An arm whose body text `1i32 ` differs from `1i32` only by a trailing
whitespace character; the run collector must not merge it. -/
def exArmWs : MatchArm :=
  { pats := [{ text := "X::B", isPlaceholder := false }], guard := none
    expr := some { text := "1i32 ", rangeStart := 24, rangeEnd := 29 }
    rangeStart := 15, rangeEnd := 29 }

/-- A guard-free arm with body text `1i32` identical to `exArmA`'s, placed
in the sibling chain before the anchor; it must never join the run. -/
def exArmPrev : MatchArm :=
  { pats := [{ text := "X::Z", isPlaceholder := false }], guard := none
    expr := some { text := "1i32", rangeStart := 58, rangeEnd := 62 }
    rangeStart := 50, rangeEnd := 62 }

/-- A thirty-character text the example edit is applied to when checking the
frame property. -/
def exText : List Char := List.replicate 30 'x'

/-! Generic facts about `List.takeWhile`, proved by induction, used to
characterise the run collector. -/

theorem takeWhile_all_sat {α : Type} (p : α → Bool) (l : List α) :
    (l.takeWhile p).all p = true := by
  induction l with
  | nil => rfl
  | cons a l ih =>
    by_cases h : p a = true
    · simp [List.takeWhile_cons, h, ih]
    · simp [List.takeWhile_cons, h]

theorem takeWhile_eq_take {α : Type} (p : α → Bool) (l : List α) :
    l.takeWhile p = l.take (l.takeWhile p).length := by
  induction l with
  | nil => rfl
  | cons a l ih =>
    by_cases h : p a = true
    · simp only [List.takeWhile_cons, h, if_true, List.length_cons, List.take_succ_cons]
      exact congrArg (a :: ·) ih
    · simp [List.takeWhile_cons, h]

theorem takeWhile_stop {α : Type} (p : α → Bool) (l : List α) :
    ((l.drop (l.takeWhile p).length).head?.all fun x => !p x) = true := by
  induction l with
  | nil => rfl
  | cons a l ih =>
    by_cases h : p a = true
    · simp only [List.takeWhile_cons, h, if_true, List.length_cons, List.drop_succ_cons]
      exact ih
    · simp [List.takeWhile_cons, h]

/-- The take-while predicate of the run collector, rewritten as one boolean
conjunction: no guard, and a body whose text equals the anchor body's text. -/
theorem keepArm_eq (e : Expr) (arm : MatchArm) :
    keepArm e arm = (!arm.guard.isSome && arm.expr.any fun b => b.text == e.text) := by
  unfold keepArm
  cases hg : arm.guard <;> cases he : arm.expr <;> simp [Option.any]

/-- C1: the collected run is exactly the maximal forward-contiguous sequence
of arms starting at the anchor in which every arm has no guard and has a body
whose rendered text is character-for-character equal to the anchor's body
text; the run is a prefix of the arm chain, the first arm past the run (when
one exists) fails the predicate, and a body differing from the anchor's only
by a whitespace character is treated as different and not merged. -/
theorem C1_run_maximal_contiguous (a : MatchArm) (after : List Node) (e : Expr) :
    ((collectArms a after e).all fun arm =>
        !arm.guard.isSome && arm.expr.any fun b => b.text == e.text) = true
    ∧ collectArms a after e
        = (a :: armsAfter after).take (collectArms a after e).length
    ∧ (((a :: armsAfter after).drop (collectArms a after e).length).head?.all
        fun arm => !keepArm e arm) = true
    ∧ collectArms exArmA [Node.other, Node.arm exArmWs] exExprA = [exArmA] := by
  refine ⟨?_, ?_, ?_, by decide⟩
  · have h : (fun arm => !arm.guard.isSome && arm.expr.any fun b => b.text == e.text)
        = keepArm e := funext fun arm => (keepArm_eq e arm).symm
    rw [h]
    exact takeWhile_all_sat (keepArm e) (a :: armsAfter after)
  · exact takeWhile_eq_take (keepArm e) (a :: armsAfter after)
  · exact takeWhile_stop (keepArm e) (a :: armsAfter after)

/-- C8: when the anchor passes its checks (no guard, has a body), the
collected run is non-empty and starts with the anchor itself, so the accesses
to the run's first and last elements never hit the fallback. -/
theorem C8_run_starts_with_anchor (a : MatchArm) (after : List Node) (e : Expr)
    (hg : a.guard = none) (he : a.expr = some e) :
    (collectArms a after e).head? = some a
    ∧ collectArms a after e ≠ []
    ∧ (collectArms a after e).getLast? ≠ none
    ∧ runStart (collectArms a after e) = a.rangeStart := by
  have hk : keepArm e a = true := by simp [keepArm, hg, he]
  have hc : collectArms a after e = a :: (armsAfter after).takeWhile (keepArm e) := by
    simp [collectArms, List.takeWhile_cons, hk]
  refine ⟨by simp [hc], by simp [hc], ?_, by simp [hc, runStart]⟩
  rw [hc]
  simp [← Option.isSome_iff_ne_none, List.getLast?_isSome]

/-- witness for C8 at the example anchor `X::A => 1i32`. -/
theorem C8_run_starts_with_anchor_w :
    (collectArms exArmA exAfterA exExprA).head? = some exArmA
    ∧ collectArms exArmA exAfterA exExprA ≠ []
    ∧ (collectArms exArmA exAfterA exExprA).getLast? ≠ none
    ∧ runStart (collectArms exArmA exAfterA exExprA) = exArmA.rangeStart :=
  C8_run_starts_with_anchor exArmA exAfterA exExprA rfl rfl

/-- C9: the successor of an arm skips non-arm siblings: `next_arm` passes
over a non-arm node, inserting a non-arm sibling anywhere in the chain leaves
the arm chain unchanged, and therefore leaves the collected run unchanged. -/
theorem C9_skip_non_arm_siblings (sibs l1 l2 : List Node) (a : MatchArm) (e : Expr) :
    next_arm (Node.other :: sibs) = next_arm sibs
    ∧ armsAfter (l1 ++ Node.other :: l2) = armsAfter (l1 ++ l2)
    ∧ collectArms a (l1 ++ Node.other :: l2) e = collectArms a (l1 ++ l2) e := by
  have harm : ∀ l1 : List Node, armsAfter (l1 ++ Node.other :: l2) = armsAfter (l1 ++ l2) := by
    intro l1
    induction l1 with
    | nil => rfl
    | cons n l ih => cases n <;> simp [armsAfter, ih]
  exact ⟨rfl, harm l1, by simp [collectArms, harm l1]⟩

/-- When every gate passes, the assist returns exactly the edit built by the
closure: target the anchor's range, remap the cursor according to its
classification, and replace the run's span with the merged arm text. -/
theorem merge_success_eq (snap : List Node) (cursor : Nat)
    (a : MatchArm) (after : List Node) (e : Expr)
    (hf : findArmAt snap cursor = some (a, after))
    (hg : a.guard = none) (he : a.expr = some e)
    (hl : ¬ (collectArms a after e).length ≤ 1) :
    merge_match_arms snap cursor = some
      { target := (a.rangeStart, a.rangeEnd)
        cursor :=
          if containsOffset e.rangeStart e.rangeEnd cursor then
            runStart (collectArms a after e)
              + (mergedPats (collectArms a after e) ++ " => " ++ e.text).length
              - (a.rangeEnd - cursor)
          else cursor
        replaceRange := (runStart (collectArms a after e), runEnd (collectArms a after e))
        replaceWith := mergedPats (collectArms a after e) ++ " => " ++ e.text } := by
  by_cases hc : containsOffset e.rangeStart e.rangeEnd cursor = true
  · simp [merge_match_arms, hf, hg, he, hl, hc]
  · rw [Bool.not_eq_true] at hc
    simp [merge_match_arms, hf, hg, he, hl, hc]

/-- A run of length at most one makes the assist bail out. -/
theorem merge_none_of_short (snap : List Node) (cursor : Nat)
    (a : MatchArm) (after : List Node) (e : Expr)
    (hf : findArmAt snap cursor = some (a, after))
    (hg : a.guard = none) (he : a.expr = some e)
    (hl : (collectArms a after e).length ≤ 1) :
    merge_match_arms snap cursor = none := by
  simp [merge_match_arms, hf, hg, he, hl]

/-- A produced edit forces the collected run to have at least two members. -/
theorem merge_some_len (snap : List Node) (cursor : Nat)
    (a : MatchArm) (after : List Node) (e : Expr) (r : Assist)
    (hf : findArmAt snap cursor = some (a, after))
    (hg : a.guard = none) (he : a.expr = some e)
    (hr : merge_match_arms snap cursor = some r) :
    ¬ (collectArms a after e).length ≤ 1 := by
  intro hl
  rw [merge_none_of_short snap cursor a after e hf hg he hl] at hr
  exact Option.noConfusion hr

/-- Inversion: the produced edit is exactly the record built by the closure. -/
theorem merge_some_eq (snap : List Node) (cursor : Nat)
    (a : MatchArm) (after : List Node) (e : Expr) (r : Assist)
    (hf : findArmAt snap cursor = some (a, after))
    (hg : a.guard = none) (he : a.expr = some e)
    (hr : merge_match_arms snap cursor = some r) :
    r = { target := (a.rangeStart, a.rangeEnd)
          cursor :=
            if containsOffset e.rangeStart e.rangeEnd cursor then
              runStart (collectArms a after e)
                + (mergedPats (collectArms a after e) ++ " => " ++ e.text).length
                - (a.rangeEnd - cursor)
            else cursor
          replaceRange := (runStart (collectArms a after e), runEnd (collectArms a after e))
          replaceWith := mergedPats (collectArms a after e) ++ " => " ++ e.text } := by
  have hl := merge_some_len snap cursor a after e r hf hg he hr
  rw [merge_success_eq snap cursor a after e hf hg he hl] at hr
  exact (Option.some_inj.mp hr).symm

/-- C5: the operation reports "not applicable" (a `none` result, no partial
edit) exactly when the cursor lies in no match arm, or the anchor arm has a
guard, or the anchor arm has no body expression, or the collected run has
fewer than two members; in every other case a complete edit is produced. -/
theorem C5_not_applicable_iff (snap : List Node) (cursor : Nat) :
    merge_match_arms snap cursor = none
      ↔ (findArmAt snap cursor = none
          ∨ ∃ a after, findArmAt snap cursor = some (a, after)
              ∧ (a.guard.isSome = true
                  ∨ a.expr = none
                  ∨ ∃ e, a.expr = some e ∧ (collectArms a after e).length ≤ 1)) := by
  cases hf : findArmAt snap cursor with
  | none => simp [merge_match_arms, hf]
  | some p =>
    obtain ⟨a, after⟩ := p
    by_cases hg : a.guard.isSome = true
    · simp only [merge_match_arms, hf, hg, if_true, true_iff]
      exact Or.inr ⟨a, after, rfl, Or.inl hg⟩
    · rw [Bool.not_eq_true] at hg
      cases he : a.expr with
      | none =>
        simp [merge_match_arms, hf, hg, he]
        exact ⟨a, after, ⟨rfl, rfl⟩, Or.inr (Or.inl he)⟩
      | some e =>
        by_cases hl : (collectArms a after e).length ≤ 1
        · simp [merge_match_arms, hf, hg, he, hl]
          exact ⟨a, after, ⟨rfl, rfl⟩, Or.inr (Or.inr ⟨e, he, hl⟩)⟩
        · simp [merge_match_arms, hf, hg, he, hl]
          exact ⟨Option.not_isSome_iff_eq_none.mp (by simp [hg]), by omega⟩

/-- witness for C5: on the example arm list a cursor at offset 14 (on the
comma between the first two arms) lies in no arm, so the assist bails out. -/
theorem C5_not_applicable_iff_w : merge_match_arms exSnapA 14 = none :=
  (C5_not_applicable_iff exSnapA 14).mpr (Or.inl (by decide))

/-- C2: when any arm of the run (the anchor included) has a placeholder
pattern among its patterns, the merged pattern text is exactly the
placeholder token `_`, and the emitted replacement is the placeholder
followed by the arrow and the anchor's body text. -/
theorem C2_placeholder_collapse (snap : List Node) (cursor : Nat)
    (a : MatchArm) (after : List Node) (e : Expr) (r : Assist)
    (hf : findArmAt snap cursor = some (a, after))
    (hg : a.guard = none) (he : a.expr = some e)
    (hp : (collectArms a after e).any contains_placeholder = true)
    (hr : merge_match_arms snap cursor = some r) :
    mergedPats (collectArms a after e) = "_"
    ∧ r.replaceWith = "_" ++ " => " ++ e.text := by
  have hm : mergedPats (collectArms a after e) = "_" := by simp [mergedPats, hp]
  have hre := merge_some_eq snap cursor a after e r hf hg he hr
  subst hre
  exact ⟨hm, by simp [hm]⟩

/-- witness for C2 on the placeholder example: the anchor `X::B => 2i32`
merges with the following `_ => 2i32` into `_ => 2i32`. -/
theorem C2_placeholder_collapse_w :
    mergedPats (collectArms exArmB2 exAfterP exExprB2) = "_"
    ∧ exAssistP.replaceWith = "_" ++ " => " ++ exExprB2.text :=
  C2_placeholder_collapse exSnapP 26 exArmB2 exAfterP exExprB2 exAssistP
    (by decide) rfl rfl (by decide) (by decide)

/-- C3: when no arm of the run has a placeholder pattern, the replacement
text is every pattern's original text — in run order, left-to-right within
each arm — joined by `" | "`, followed by `" => "` and the anchor's body text
exactly as written. -/
theorem C3_alternation_merge (snap : List Node) (cursor : Nat)
    (a : MatchArm) (after : List Node) (e : Expr) (r : Assist)
    (hf : findArmAt snap cursor = some (a, after))
    (hg : a.guard = none) (he : a.expr = some e)
    (hp : (collectArms a after e).any contains_placeholder = false)
    (hr : merge_match_arms snap cursor = some r) :
    r.replaceWith
      = String.intercalate " | "
          (((collectArms a after e).map fun x => x.pats.map Pat.text).flatten)
        ++ " => " ++ e.text := by
  have hm : mergedPats (collectArms a after e)
      = String.intercalate " | "
          (((collectArms a after e).map fun x => x.pats.map Pat.text).flatten) := by
    simp [mergedPats, hp]
  have hre := merge_some_eq snap cursor a after e r hf hg he hr
  subst hre
  simp [hm]

/-- witness for C3 on the example run `X::A => 1i32`, `X::B => 1i32`: the
replacement is `X::A | X::B => 1i32`. -/
theorem C3_alternation_merge_w :
    exAssistA.replaceWith
      = String.intercalate " | "
          (((collectArms exArmA exAfterA exExprA).map fun x => x.pats.map Pat.text).flatten)
        ++ " => " ++ exExprA.text :=
  C3_alternation_merge exSnapA 10 exArmA exAfterA exExprA exAssistA
    (by decide) rfl rfl (by decide) (by decide)

/-- C4: the resulting cursor is computed in exactly one of two modes: when the
original cursor fell inside the anchor body's range the new offset is the
start of the merged region plus the merged arm text's length minus the
distance from the end of the anchor arm's range to the original cursor;
otherwise the cursor is returned unchanged. -/
theorem C4_cursor_two_modes (snap : List Node) (cursor : Nat)
    (a : MatchArm) (after : List Node) (e : Expr) (r : Assist)
    (hf : findArmAt snap cursor = some (a, after))
    (hg : a.guard = none) (he : a.expr = some e)
    (hr : merge_match_arms snap cursor = some r) :
    r.cursor
      = if containsOffset e.rangeStart e.rangeEnd cursor then
          runStart (collectArms a after e) + r.replaceWith.length
            - (a.rangeEnd - cursor)
        else cursor := by
  have hre := merge_some_eq snap cursor a after e r hf hg he hr
  subst hre
  rfl

/-- witness for C4 on the example run with the cursor at offset 10, inside
the anchor body (3 units before the end of the anchor's range). -/
theorem C4_cursor_two_modes_w :
    exAssistA.cursor
      = if containsOffset exExprA.rangeStart exExprA.rangeEnd 10 then
          runStart (collectArms exArmA exAfterA exExprA) + exAssistA.replaceWith.length
            - (exArmA.rangeEnd - 10)
        else 10 :=
  C4_cursor_two_modes exSnapA 10 exArmA exAfterA exExprA exAssistA
    (by decide) rfl rfl (by decide)

/-- A single range-replacement leaves the text before the replaced range
untouched. -/
theorem applyEdit_take (text : List Char) (s eo : Nat) (repl : List Char)
    (h : s ≤ text.length) :
    (applyEdit text s eo repl).take s = text.take s := by
  unfold applyEdit
  rw [List.take_append_of_le_length (by simp [List.length_take]; omega),
      List.take_append_of_le_length (by simp [List.length_take]; omega)]
  simp [List.take_take]

/-- A single range-replacement leaves the text after the replaced range
untouched (shifted to just after the inserted text). -/
theorem applyEdit_drop (text : List Char) (s eo : Nat) (repl : List Char)
    (h : s ≤ text.length) :
    (applyEdit text s eo repl).drop (s + repl.length) = text.drop eo := by
  unfold applyEdit
  rw [List.drop_left' (by simp [List.length_take]; omega)]

/-- C6: the emitted edit targets the anchor arm's original full range, holds
exactly one range-replacement spanning from the start of the first run arm to
the end of the last run arm, and modifies no text outside that replaced
range: applying the replacement keeps the text before the range and the text
after it. -/
theorem C6_single_replacement_frame (snap : List Node) (cursor : Nat)
    (a : MatchArm) (after : List Node) (e : Expr) (r : Assist)
    (hf : findArmAt snap cursor = some (a, after))
    (hg : a.guard = none) (he : a.expr = some e)
    (hr : merge_match_arms snap cursor = some r) :
    r.target = (a.rangeStart, a.rangeEnd)
    ∧ r.replaceRange = (runStart (collectArms a after e), runEnd (collectArms a after e))
    ∧ (∀ text : List Char, r.replaceRange.1 ≤ text.length →
        (applyEdit text r.replaceRange.1 r.replaceRange.2 r.replaceWith.data).take
            r.replaceRange.1
          = text.take r.replaceRange.1)
    ∧ (∀ text : List Char, r.replaceRange.1 ≤ text.length →
        (applyEdit text r.replaceRange.1 r.replaceRange.2 r.replaceWith.data).drop
            (r.replaceRange.1 + r.replaceWith.data.length)
          = text.drop r.replaceRange.2) := by
  have hre := merge_some_eq snap cursor a after e r hf hg he hr
  subst hre
  exact ⟨rfl, rfl,
    fun text ht => applyEdit_take text _ _ _ ht,
    fun text ht => applyEdit_drop text _ _ _ ht⟩

/-- witness for C6 on the example run, applying the replacement to a concrete
thirty-character text. -/
theorem C6_single_replacement_frame_w :
    exAssistA.target = (exArmA.rangeStart, exArmA.rangeEnd)
    ∧ exAssistA.replaceRange
        = (runStart (collectArms exArmA exAfterA exExprA),
           runEnd (collectArms exArmA exAfterA exExprA))
    ∧ (applyEdit exText exAssistA.replaceRange.1 exAssistA.replaceRange.2
          exAssistA.replaceWith.data).take exAssistA.replaceRange.1
        = exText.take exAssistA.replaceRange.1
    ∧ (applyEdit exText exAssistA.replaceRange.1 exAssistA.replaceRange.2
          exAssistA.replaceWith.data).drop
          (exAssistA.replaceRange.1 + exAssistA.replaceWith.data.length)
        = exText.drop exAssistA.replaceRange.2 := by
  obtain ⟨h1, h2, h3, h4⟩ :=
    C6_single_replacement_frame exSnapA 10 exArmA exAfterA exExprA exAssistA
      (by decide) rfl rfl (by decide)
  exact ⟨h1, h2, h3 exText (by decide), h4 exText (by decide)⟩

/-- Arm siblings not containing the cursor, placed before the rest of the
chain, do not affect where the anchor locator lands. -/
theorem findArmAt_of_all_noArm (pre rest : List Node) (cursor : Nat)
    (h : pre.all (noArmAt cursor) = true) :
    findArmAt (pre ++ rest) cursor = findArmAt rest cursor := by
  induction pre with
  | nil => rfl
  | cons n pre ih =>
    rw [List.all_cons, Bool.and_eq_true] at h
    cases n with
    | arm b =>
      have hb : containsOffset b.rangeStart b.rangeEnd cursor = false := by
        have := h.1
        simpa [noArmAt] using this
      simpa [findArmAt, hb] using ih h.2
    | other => simpa [findArmAt] using ih h.2

/-- C7: the operation never examines arms preceding the anchor: replacing
everything before the anchor's position in the sibling chain by any other
material containing no arm at the cursor — including guard-free arms whose
body text matches the anchor's — leaves the result unchanged, because run
candidates are drawn only from the anchor and its following siblings. -/
theorem C7_forward_only (pre1 pre2 rest : List Node) (cursor : Nat)
    (h1 : pre1.all (noArmAt cursor) = true)
    (h2 : pre2.all (noArmAt cursor) = true) :
    merge_match_arms (pre1 ++ rest) cursor = merge_match_arms (pre2 ++ rest) cursor := by
  unfold merge_match_arms
  rw [findArmAt_of_all_noArm pre1 rest cursor h1,
      findArmAt_of_all_noArm pre2 rest cursor h2]

/-- witness for C7: prepending a guard-free arm whose body text `1i32` is
identical to the anchor's does not change the produced edit. -/
theorem C7_forward_only_w :
    merge_match_arms ([Node.arm exArmPrev] ++ exSnapA) 10
      = merge_match_arms ([] ++ exSnapA) 10 :=
  C7_forward_only [Node.arm exArmPrev] [] exSnapA 10 (by decide) (by decide)

/-- C10: for a successful invocation with a body-relative cursor, the recorded
distance from the end of the anchor arm's range to the cursor never exceeds
the start of the merged region plus the merged arm text's length, so the
body-relative cursor computation does not underflow: adding the distance back
to the resulting cursor recovers the merged region's end position exactly.
The well-formedness hypothesis ties the anchor arm's range to its body: the
arm ends no later than the body's start plus the body text's length. -/
theorem C10_cursor_no_underflow (snap : List Node) (cursor : Nat)
    (a : MatchArm) (after : List Node) (e : Expr) (r : Assist)
    (hf : findArmAt snap cursor = some (a, after))
    (hg : a.guard = none) (he : a.expr = some e)
    (hin : containsOffset e.rangeStart e.rangeEnd cursor = true)
    (hwf : a.rangeEnd ≤ e.rangeStart + e.text.length)
    (hr : merge_match_arms snap cursor = some r) :
    a.rangeEnd - cursor ≤ runStart (collectArms a after e) + r.replaceWith.length
    ∧ r.cursor + (a.rangeEnd - cursor)
        = runStart (collectArms a after e) + r.replaceWith.length := by
  have hre := merge_some_eq snap cursor a after e r hf hg he hr
  subst hre
  have h1 : e.rangeStart ≤ cursor := by
    have := hin
    simp [containsOffset] at this
    exact this.1
  have hlen : (mergedPats (collectArms a after e) ++ " => " ++ e.text).length
      = (mergedPats (collectArms a after e)).length + " => ".length + e.text.length := by
    rw [String.length_append, String.length_append]
  simp only [hin, if_true, hlen]
  omega

/-- witness for C10 on the example run with the cursor at offset 10 inside
the anchor body. -/
theorem C10_cursor_no_underflow_w :
    exArmA.rangeEnd - 10
        ≤ runStart (collectArms exArmA exAfterA exExprA) + exAssistA.replaceWith.length
    ∧ exAssistA.cursor + (exArmA.rangeEnd - 10)
        = runStart (collectArms exArmA exAfterA exExprA) + exAssistA.replaceWith.length :=
  C10_cursor_no_underflow exSnapA 10 exArmA exAfterA exExprA exAssistA
    (by decide) rfl rfl (by decide) (by decide) (by decide)

end MergeArms
